import Mathlib

/-!
Verification of the network-reconnaissance graph builder
(`dns_enumerator.py` and `port_scanner.py` of the fastapi backend service).

The Python code is shallowly embedded: every external effect (DNS-over-HTTPS
queries, certificate-transparency search, reverse DNS, TCP connects, and the
third-party `idna` encoder) is supplied as an explicit oracle parameter, and
the remaining code is translated into executable Lean functions.  Python
`str` operations are modelled on Lean `String`/`List Char`; `.lower()`,
`.strip()` and the regexes are modelled for the ASCII range, which is the
range all verified claims exercise.
-/

namespace OsintBox

/-- Model of Python `str.lower` on a single character (ASCII range: maps
`A`-`Z` to `a`-`z`, leaves everything else unchanged). -/
def pyLowerChar (c : Char) : Char :=
  if 65 ≤ c.toNat ∧ c.toNat ≤ 90 then Char.ofNat (c.toNat + 32) else c

/-- Model of Python `str.lower` (ASCII range). -/
def pyLower (s : String) : String :=
  String.mk (s.data.map pyLowerChar)

/-- Characters Python `str.strip()` removes (ASCII whitespace). -/
def pyIsSpace (c : Char) : Bool :=
  c = ' ' || c = '\t' || c = '\n' || c = '\r' || c = '\x0b' || c = '\x0c'

/-- Model of Python `str.strip()` (no argument): drop whitespace from both
ends. -/
def pyStrip (s : String) : String :=
  String.mk (((s.data.dropWhile pyIsSpace).reverse.dropWhile pyIsSpace).reverse)

/-- Model of Python `str.strip('.')`: drop `.` characters from both ends. -/
def stripDots (s : String) : String :=
  String.mk (((s.data.dropWhile (· = '.')).reverse.dropWhile (· = '.')).reverse)

/-- Contiguous-sublist test on character lists. -/
def containsSeq (pat : List Char) : List Char → Bool
  | [] => pat.isEmpty
  | c :: t => pat.isPrefixOf (c :: t) || containsSeq pat t

/-- Model of Python's substring test `pat in s`. -/
def containsSub (s pat : String) : Bool :=
  containsSeq pat.data s.data

/-- Model of Python `s.startswith(pat)` (kernel-reducible). -/
def strStartsWith (s pat : String) : Bool :=
  pat.data.isPrefixOf s.data

/-- Model of Python `s.endswith(pat)` (kernel-reducible). -/
def strEndsWith (s pat : String) : Bool :=
  pat.data.reverse.isPrefixOf s.data.reverse

/-- Model of Python `s.split(sep)` for a one-character separator (keeps
empty groups, `"".split(sep) == ['']`). -/
def splitOnChar (sep : Char) : List Char → List (List Char)
  | [] => [[]]
  | c :: rest =>
    if c = sep then [] :: splitOnChar sep rest
    else
      match splitOnChar sep rest with
      | g :: gs => (c :: g) :: gs
      | [] => [[c]]

/-- String version of `splitOnChar`. -/
def pySplit (s : String) (sep : Char) : List String :=
  (splitOnChar sep s.data).map String.mk

/-- Decimal value of an all-digit character list. -/
def digitsToNat (cs : List Char) : Nat :=
  cs.foldl (fun n c => n * 10 + (c.toNat - 48)) 0

/-- Model of Python's `a or b` for an optional string `a` (`None` and the
empty string are falsy). -/
def pyOrStr (a : Option String) (b : String) : String :=
  match a with
  | some s => if s = "" then b else s
  | none => b

/-- Model of Python truthiness for an optional string: `None` and `""` are
falsy. -/
def pyTruthy (a : Option String) : Option String :=
  match a with
  | some s => if s = "" then none else some s
  | none => none

/-- Add an element to a Python-`set`-like accumulator (insertion order,
no duplicates). -/
def insertNew (l : List String) (x : String) : List String :=
  if x ∈ l then l else l ++ [x]

/-!
## Domain Normalizer (`normalizeDomainForDNS`, dns_enumerator.py lines 20-46)

The call `idna.encode(domain).decode('ascii')` is the third-party `idna`
library; it is supplied as the oracle `enc`, with `none` standing for any
raised exception (`IDNAError`, `UnicodeDecodeError`, ...).
-/

/-- Embedding of `normalizeDomainForDNS`, parameterized by the `idna`
encoding oracle `enc` (modelling `idna.encode(d).decode('ascii')`,
`none` = raised). -/
def normalizeDomainForDNS (enc : String → Option String) (domain : String) :
    Option String :=
  if containsSub domain ".." then none
  else
    match enc domain with
    | none => none
    | some p =>
      let punycode_domain := pyLower p
      if punycode_domain == "" || containsSub punycode_domain ".."
          || strStartsWith punycode_domain "-" || strEndsWith punycode_domain "-" then
        none
      else
        some punycode_domain

/-!
## Port scanner (`port_scanner.py`)
-/

/-- Embedding of `is_valid_ipv4_address`: Python
`re.match(r'^\d{1,3}\.\d{1,3}\.\d{1,3}\.\d{1,3}$', ip)`.  A `$` also matches
just before one trailing newline; `\d` is modelled for ASCII digits. -/
def is_valid_ipv4_address (ip : String) : Bool :=
  let cs := if ip.data.getLast? = some '\n' then ip.data.dropLast else ip.data
  match splitOnChar '.' cs with
  | [a, b, c, d] =>
    [a, b, c, d].all fun g =>
      decide (1 ≤ g.length) && decide (g.length ≤ 3) && g.all Char.isDigit
  | _ => false

/-- Genuine dotted-quad IPv4 syntax, following the spec's words: four
dot-separated decimal octets each between 0 and 255.  Used only to compare
the code's permissive regex against real IPv4 validity. -/
def ipv4OctetsInRange (ip : String) : Bool :=
  match splitOnChar '.' ip.data with
  | [a, b, c, d] =>
    [a, b, c, d].all fun g =>
      decide (1 ≤ g.length) && g.all Char.isDigit &&
        decide (digitsToNat g ≤ 255)
  | _ => false

/-- Embedding of `resolve_domain_to_ip`.  `answers d` is the oracle for the
DoH `A` query: `some l` is the parsed `Answer` list (possibly empty),
`none` is any request/HTTP/JSON failure.  The second component is the list
of DNS queries issued. -/
def resolve_domain_to_ip (answers : String → Option (List String))
    (domain : String) : Option String × List String :=
  if is_valid_ipv4_address domain then (some domain, [])
  else
    match answers domain with
    | some l => (l.head?, [domain])
    | none => (none, [domain])

/-- Outcome of one raw TCP connect attempt (`asyncio.open_connection`):
either the connect succeeded, or one of the caught exception classes. -/
inductive ProbeOutcome where
  | opened
  | timedOut
  | refused
  | osError
  | otherError
deriving DecidableEq, Repr

/-- Result dict of `check_single_port_python`. -/
structure PortProbe where
  port : Nat
  isOpen : Bool
deriving DecidableEq, Repr

/-- Embedding of `check_single_port_python`: success means open, every
caught exception (timeout, refused, OS error, anything else) means closed. -/
def check_single_port_python (port : Nat) (o : ProbeOutcome) : PortProbe :=
  match o with
  | .opened => { port := port, isOpen := true }
  | .timedOut => { port := port, isOpen := false }
  | .refused => { port := port, isOpen := false }
  | .osError => { port := port, isOpen := false }
  | .otherError => { port := port, isOpen := false }

/-- The fixed port list of `local_port_check_python`. -/
def common_ports : List Nat :=
  [21, 22, 23, 25, 53, 80, 110, 143, 443, 465, 587, 993, 995, 3306, 3389,
   8080, 8443]

/-- The static port-classification chain of `local_port_check_python`,
returning `(protocol, service_name)`. -/
def classifyPort (port : Nat) : String × String :=
  if port = 21 then ("tcp", "ftp")
  else if port = 22 then ("tcp", "ssh")
  else if port = 23 then ("tcp", "telnet")
  else if port = 25 then ("tcp", "smtp")
  else if port = 53 then ("tcp", "dns")
  else if port = 80 then ("http", "http")
  else if port = 110 then ("tcp", "pop3")
  else if port = 143 then ("tcp", "imap")
  else if port = 443 then ("https", "https")
  else if port = 465 then ("ssl/tls", "smtps")
  else if port = 587 then ("smtp", "submission")
  else if port = 993 then ("ssl/tls", "imaps")
  else if port = 995 then ("ssl/tls", "pop3s")
  else if port = 3306 then ("tcp", "mysql")
  else if port = 3389 then ("tcp", "rdp")
  else if port = 8080 then ("http", "http-alt")
  else if port = 8443 then ("https", "https-alt")
  else ("tcp", "unknown")

/-- One entry of the `services` list. -/
structure PortService where
  port : Nat
  protocol : String
  service : String
deriving DecidableEq, Repr

/-- Result dict of `local_port_check_python`. -/
structure LocalScanResult where
  source : String
  ports : List Nat
  services : List PortService
  note : String
deriving DecidableEq, Repr

/-- Embedding of `local_port_check_python`.  `probe p` is the oracle giving
the outcome of the TCP connect to port `p` (the `asyncio.gather` preserves
the order of `common_ports`). -/
def local_port_check_python (probe : Nat → ProbeOutcome) : LocalScanResult :=
  let results := common_ports.map fun p => check_single_port_python p (probe p)
  let opens := results.filter (·.isOpen)
  { source := "local-check"
    ports := opens.map (·.port)
    services := opens.map fun r =>
      { port := r.port
        protocol := (classifyPort r.port).1
        service := (classifyPort r.port).2 }
    note := "Performed local check on common ports." }

/-- Environment of `run_port_scan`: the DoH `A`-query oracle and the TCP
probe oracle. -/
structure ScanEnv where
  answers : String → Option (List String)
  probe : Nat → ProbeOutcome

/-- The two result dict shapes of `run_port_scan`. -/
inductive ScanResponse where
  | failure (error note : String)
  | success (target ip source : String) (ports : List Nat)
      (services : List PortService) (note : String)
deriving DecidableEq, Repr

/-- The `ip` field of a `run_port_scan` result (absent on the error path). -/
def ScanResponse.ipField : ScanResponse → Option String
  | .failure _ _ => none
  | .success _ ip _ _ _ _ => some ip

/-- Embedding of `run_port_scan`.  The second component is the list of DNS
queries issued. -/
def run_port_scan (env : ScanEnv) (target : String) :
    ScanResponse × List String :=
  if is_valid_ipv4_address target then
    let r := local_port_check_python env.probe
    (.success target target r.source r.ports r.services r.note, [])
  else
    match resolve_domain_to_ip env.answers target with
    | (some ip, qs) =>
      if ip = "" then
        (.failure ("Could not resolve domain '" ++ target ++
            "' to IP. Scan cannot proceed.") "DNS resolution failed.", qs)
      else
        let r := local_port_check_python env.probe
        (.success target ip r.source r.ports r.services r.note, qs)
    | (none, qs) =>
      (.failure ("Could not resolve domain '" ++ target ++
          "' to IP. Scan cannot proceed.") "DNS resolution failed.", qs)

/-!
## Subdomain discovery from certificate transparency
(`discover_subdomains_crtsh`, dns_enumerator.py lines 93-133)
-/

/-- One certificate object of the crt.sh JSON response: the two optional
fields the code reads. -/
structure Cert where
  common_name : Option String
  name_value : Option String
deriving DecidableEq, Repr

/-- Model of Python `s.replace('*.', '')`: remove every (left-to-right,
non-overlapping) occurrence of `*.`. -/
def removeStarDot : List Char → List Char
  | '*' :: '.' :: rest => removeStarDot rest
  | c :: rest => c :: removeStarDot rest
  | [] => []

/-- String version of `removeStarDot`. -/
def replaceStarDotAll (s : String) : String :=
  String.mk (removeStarDot s.data)

/-- The `common_name` branch of the crt.sh loop (lines 110-116): filter on
the raw name, then add its lower-cased (and, for wildcards, `*.`-stripped)
form. -/
def cnPart (domain : String) (acc : List String) (o : Option String) :
    List String :=
  match o with
  | some cn =>
    if strEndsWith cn ("." ++ domain) || cn == domain then
      if strStartsWith cn "*." && cn != domain then
        insertNew acc (replaceStarDotAll (pyLower cn))
      else
        insertNew acc (pyLower cn)
    else acc
  | none => acc

/-- One name of the newline-split `name_value` field (lines 119-124):
strip, then the wildcard branch or the plain suffix/equality branch. -/
def nvBody (domain : String) (acc : List String) (rawName : String) :
    List String :=
  let name := pyStrip rawName
  if strStartsWith name "*." && strEndsWith name ("." ++ domain) then
    insertNew acc (replaceStarDotAll (pyLower name))
  else if strEndsWith name ("." ++ domain) || name == domain then
    insertNew acc (pyLower name)
  else acc

/-- One iteration of the crt.sh certificate loop (lines 109-124). -/
def certStep (domain : String) (acc : List String) (cert : Cert) :
    List String :=
  let acc1 := cnPart domain acc cert.common_name
  match cert.name_value with
  | some nv => (pySplit nv '\n').foldl (nvBody domain) acc1
  | none => acc1

/-- The pure accumulation core of `discover_subdomains_crtsh`, applied to a
successfully fetched and parsed certificate list (on any fetch/parse
failure the Python function returns the empty list instead). -/
def discover_subdomains_crtsh (domain : String) (certs : List Cert) :
    List String :=
  certs.foldl (certStep domain) []

/-- The spec's filter, following its words: the lower-cased name equals the
root domain or is a strict subdomain of it (used to compare the spec's
description with the code's case-sensitive raw-name filter). -/
def specEqOrStrictSub (root name : String) : Bool :=
  pyLower name == root || strEndsWith (pyLower name) ("." ++ root)

/-- What a `common_name` value contributes to the discovered set. -/
abbrev cnContributes (domain cn s : String) : Prop :=
  (strEndsWith cn ("." ++ domain) || cn == domain) = true ∧
  s = (if strStartsWith cn "*." && cn != domain
       then replaceStarDotAll (pyLower cn) else pyLower cn)

/-- What one raw (pre-strip) name of a `name_value` field contributes. -/
abbrev nvOneContributes (domain raw s : String) : Prop :=
  ((strStartsWith (pyStrip raw) "*."
      && strEndsWith (pyStrip raw) ("." ++ domain)) = true ∧
    s = replaceStarDotAll (pyLower (pyStrip raw))) ∨
  ((strStartsWith (pyStrip raw) "*."
      && strEndsWith (pyStrip raw) ("." ++ domain)) = false ∧
    (strEndsWith (pyStrip raw) ("." ++ domain) || pyStrip raw == domain)
      = true ∧
    s = pyLower (pyStrip raw))

/-- What one certificate entry contributes to the discovered set. -/
abbrev certContributes (domain : String) (c : Cert) (s : String) : Prop :=
  (∃ cn, c.common_name = some cn ∧ cnContributes domain cn s) ∨
  (∃ nv, c.name_value = some nv ∧
    ∃ raw ∈ pySplit nv '\n', nvOneContributes domain raw s)

/-!
## Graph orchestrator (`run_dns_enum`, dns_enumerator.py lines 150-301)
-/

/-- A graph node as built by `add_node` (plus the `txt_records` attribute
optionally attached to the root node). -/
structure Node where
  id : Nat
  type : String
  value : String
  label : String
  txt_records : Option String := none
deriving DecidableEq, Repr

/-- A typed edge of the result graph. -/
structure Link where
  source : Nat
  target : Nat
  type : String
deriving DecidableEq, Repr

/-- The record set returned by `get_dns_records` (each list empty when that
record type's lookup failed or returned no `Answer`). -/
structure DnsRecords where
  A : List String
  AAAA : List String
  MX : List String
  NS : List String
  TXT : List String
  CNAME : List (String × String)
  SOA : Option String
deriving DecidableEq, Repr

/-- The all-empty record set (every lookup failed or returned no data). -/
def emptyRecords : DnsRecords :=
  { A := [], AAAA := [], MX := [], NS := [], TXT := [], CNAME := [],
    SOA := none }

/-- The mutable traversal state of one `run_dns_enum` invocation:
`nodes`, `links`, the value-to-id dict `node_map`, and the id counter. -/
structure GS where
  nodes : List Node
  links : List Link
  node_map : List (String × Nat)
  next_node_id : Nat
deriving DecidableEq, Repr

/-- The initial (empty) traversal state. -/
def GS.empty : GS :=
  { nodes := [], links := [], node_map := [], next_node_id := 0 }

/-- Dict lookup in the value-to-id map. -/
def findId : List (String × Nat) → String → Option Nat
  | [], _ => none
  | (k, v) :: rest, key => if k = key then some v else findId rest key

/-- Embedding of the closure `add_node`: look the normalized value up in
`node_map`; reuse the existing id, or create a node with the next
sequential id. -/
def add_node (st : GS) (node_type : String) (value : String)
    (label : Option String) : Nat × GS :=
  let normalized_value := pyStrip (pyLower value)
  match findId st.node_map normalized_value with
  | some i => (i, st)
  | none =>
    let node_id := st.next_node_id
    (node_id,
      { nodes := st.nodes ++
          [{ id := node_id, type := node_type, value := normalized_value,
             label := pyOrStr label value }]
        links := st.links
        node_map := st.node_map ++ [(normalized_value, node_id)]
        next_node_id := node_id + 1 })

/-- Append one edge. -/
def pushLink (st : GS) (source target : Nat) (linkType : String) : GS :=
  { st with links := st.links ++ [⟨source, target, linkType⟩] }

/-- The oracles of one `run_dns_enum` invocation. -/
structure EnumEnv where
  /-- Result of `get_dns_records` for a name. -/
  dns : String → DnsRecords
  /-- crt.sh response: `some certs` when fetched and parsed, `none` when
  the request failed (the function then returns no subdomains). -/
  crtsh : String → Option (List Cert)
  /-- `perform_reverse_dns_lookup`: resolved hostname or `none`. -/
  reverse : String → Option String
  /-- Modelled from the spec: `run_port_scan_resolve_domain_to_ip`, the
  Name-to-IP Resolver (spec 4.6) shared with the port scanner, whose
  binding is absent from the sources (only its call sites exist); per the
  spec it behaves as `resolve_domain_to_ip`: first `A` answer, or `none`
  when there is no record or the query fails, never raising. -/
  resolveIp : String → Option String
  /-- The `idna` encoding oracle used by `normalizeDomainForDNS`. -/
  idna : String → Option String

/-- Model of the regex step of the MX loop:
`re.match(r'\d+\s+(.*)', mx_record)` followed by `.strip('.')` on group 1
(or on the whole record when the regex does not match).  `\d`/`\s` are
modelled for ASCII; `.` does not match a newline. -/
def parseMxHostname (mx_record : String) : String :=
  let cs := mx_record.data
  let ds := cs.takeWhile Char.isDigit
  let rest := cs.drop ds.length
  let ws := rest.takeWhile pyIsSpace
  if ds.isEmpty || ws.isEmpty then stripDots mx_record
  else stripDots (String.mk ((rest.drop ws.length).takeWhile (· ≠ '\n')))

/-- The reverse-lookup tail shared by the A, MX, NS and subdomain loops:
if the IP reverse-resolves to a (truthy) hostname whose lower-casing
differs from `cmp`, add a domain node and a `PTR_record` edge. -/
def ptrStep (env : EnumEnv) (st : GS) (ip : String) (ipId : Nat)
    (cmp : String) : GS :=
  match pyTruthy (env.reverse ip) with
  | some hostname =>
    if pyLower hostname ≠ cmp then
      pushLink (add_node st "domain" hostname none).2 ipId
        (add_node st "domain" hostname none).1 "PTR_record"
    else st
  | none => st

/-- The IP-resolution tail of the MX, NS, CNAME and subdomain loops:
resolve `host` to an IP; when truthy, add an `ip_v4` node and an
`A_record` edge, and (except in the CNAME loop) do the reverse-lookup
tail. -/
def ipResolveStep (env : EnumEnv) (st : GS) (host : String) (hostId : Nat)
    (doPtr : Bool) : GS :=
  match pyTruthy (env.resolveIp host) with
  | some ip =>
    let ipId := (add_node st "ip_v4" ip none).1
    let st2 := pushLink (add_node st "ip_v4" ip none).2 hostId ipId "A_record"
    if doPtr then ptrStep env st2 ip ipId host else st2
  | none => st

/-- Body of the `A` record loop. -/
def aBody (env : EnumEnv) (domain : String) (mainId : Nat) (st : GS)
    (ip : String) : GS :=
  let ipId := (add_node st "ip_v4" ip none).1
  let st2 := pushLink (add_node st "ip_v4" ip none).2 mainId ipId "A_record"
  ptrStep env st2 ip ipId domain

/-- Body of the `AAAA` record loop. -/
def aaaaBody (mainId : Nat) (st : GS) (ip : String) : GS :=
  pushLink (add_node st "ip_v6" ip none).2 mainId
    (add_node st "ip_v6" ip none).1 "AAAA_record"

/-- Body of the `MX` record loop. -/
def mxBody (env : EnumEnv) (mainId : Nat) (st : GS) (mx_record : String) :
    GS :=
  let mx_hostname := pyLower (parseMxHostname mx_record)
  let mxId := (add_node st "mail_server" mx_hostname none).1
  let st2 := pushLink (add_node st "mail_server" mx_hostname none).2 mainId
    mxId "MX_record"
  ipResolveStep env st2 mx_hostname mxId true

/-- Body of the `NS` record loop. -/
def nsBody (env : EnumEnv) (mainId : Nat) (st : GS) (ns_record : String) :
    GS :=
  let ns_hostname := pyLower (stripDots ns_record)
  let nsId := (add_node st "name_server" ns_hostname none).1
  let st2 := pushLink (add_node st "name_server" ns_hostname none).2 mainId
    nsId "NS_record"
  ipResolveStep env st2 ns_hostname nsId true

/-- Attach the newline-joined TXT data to the first node whose id is
`mainId` (the Python for/break). -/
def setTxtFirst (mainId : Nat) (txt : String) : List Node → List Node
  | [] => []
  | n :: rest =>
    if n.id = mainId then { n with txt_records := some txt } :: rest
    else n :: setTxtFirst mainId txt rest

/-- The TXT step: when TXT records exist, attach their newline-joined
concatenation to the root node. -/
def txtStep (txt : List String) (mainId : Nat) (st : GS) : GS :=
  if txt.isEmpty then st
  else { st with nodes := setTxtFirst mainId (String.intercalate "\n" txt) st.nodes }

/-- Body of the `CNAME` record loop. -/
def cnameBody (env : EnumEnv) (domain : String) (mainId : Nat) (st : GS)
    (entry : String × String) : GS :=
  let cname_name := pyLower (stripDots entry.1)
  let cname_target := pyLower (stripDots entry.2)
  let originId := (add_node st "domain" cname_name none).1
  let st1 := (add_node st "domain" cname_name none).2
  let targetId := (add_node st1 "domain" cname_target none).1
  let st2 := (add_node st1 "domain" cname_target none).2
  let st3 := pushLink st2 originId targetId "CNAME_record"
  let st4 :=
    if cname_name = domain then pushLink st3 mainId originId "CNAME_alias"
    else st3
  ipResolveStep env st4 cname_target targetId false

/-- Body of the subdomain loop. -/
def subBody (env : EnumEnv) (domain : String) (mainId : Nat) (st : GS)
    (subdomain : String) : GS :=
  if subdomain = domain then st
  else
    let subId := (add_node st "subdomain" subdomain none).1
    let st2 := pushLink (add_node st "subdomain" subdomain none).2 mainId
      subId "has_subdomain"
    ipResolveStep env st2 subdomain subId true

/-- The wordlist of `COMMON_SUBDOMAINS`. -/
def COMMON_SUBDOMAINS : List String :=
  ["www", "mail", "ftp", "blog", "dev", "test", "admin", "api", "webmail",
   "secure", "vpn", "m", "portal", "shop", "store", "cpanel", "autodiscover",
   "docs", "support", "help", "app", "dashboard", "status", "forum", "news"]

/-- The deduplicated subdomain candidate set (wordlist entries that
normalize, plus crt.sh names distinct from the root that normalize), in
insertion order. -/
def discoveredSubdomains (env : EnumEnv) (domain : String) : List String :=
  let fromWordlist :=
    COMMON_SUBDOMAINS.foldl
      (fun acc sub =>
        let full_subdomain := sub ++ "." ++ domain
        if (normalizeDomainForDNS env.idna full_subdomain).isSome then
          insertNew acc full_subdomain
        else acc)
      []
  let crtsh_subdomains :=
    match env.crtsh domain with
    | some certs => discover_subdomains_crtsh domain certs
    | none => []
  crtsh_subdomains.foldl
    (fun acc sub =>
      if sub ≠ domain ∧ (normalizeDomainForDNS env.idna sub).isSome then
        insertNew acc sub
      else acc)
    fromWordlist

/-- The final traversal state of `run_dns_enum`. -/
def runState (env : EnumEnv) (domain0 : String) : GS :=
  let domain := pyStrip (pyLower domain0)
  let mainId := (add_node GS.empty "domain" domain (some domain)).1
  let st := (add_node GS.empty "domain" domain (some domain)).2
  let records := env.dns domain
  let st := records.A.foldl (aBody env domain mainId) st
  let st := records.AAAA.foldl (aaaaBody mainId) st
  let st := records.MX.foldl (mxBody env mainId) st
  let st := records.NS.foldl (nsBody env mainId) st
  let st := txtStep records.TXT mainId st
  let st := records.CNAME.foldl (cnameBody env domain mainId) st
  (discoveredSubdomains env domain).foldl (subBody env domain mainId) st

/-- The returned graph structure. -/
structure Graph where
  nodes : List Node
  links : List Link
deriving DecidableEq, Repr

/-- Embedding of `run_dns_enum`: the graph data returned for one
enumeration run against the oracles `env`. -/
def run_dns_enum (env : EnumEnv) (domain : String) : Graph :=
  { nodes := (runState env domain).nodes, links := (runState env domain).links }

/-!
## Concrete environments and invariants used by the claim theorems
-/

/-- The record set of the spec's end-to-end scenario: exactly one `A`
record and nothing else. -/
def exampleRecords : DnsRecords :=
  { A := ["93.184.216.34"], AAAA := [], MX := [], NS := [], TXT := [],
    CNAME := [], SOA := none }

/-- Concrete environment for the end-to-end scenario: the DoH upstream
returns one `A` record for `example.com` and nothing else, certificate
transparency returns no entries, reverse lookups and name-to-IP
resolution return no data, and the `idna` encoder accepts names
unchanged. -/
def exampleEnv : EnumEnv :=
  { dns := fun d => if d = "example.com" then exampleRecords else emptyRecords
    crtsh := fun _ => some []
    reverse := fun _ => none
    resolveIp := fun _ => none
    idna := fun s => some s }

/-- Concrete environment in which every upstream lookup fails or returns
no data. -/
def allFailEnv : EnumEnv :=
  { dns := fun _ => emptyRecords
    crtsh := fun _ => none
    reverse := fun _ => none
    resolveIp := fun _ => none
    idna := fun s => some s }

/-- A traversal state whose value-to-id map already holds `"foo"` at id 5,
used to exercise the dedup branch of `add_node`. -/
def dupState : GS :=
  { nodes := [], links := [], node_map := [("foo", 5)], next_node_id := 9 }

/-- Shape of the traversal state inside the subdomain loop of a run whose
record lookups all returned no data: the root node first, only subdomain
nodes after it, and only `has_subdomain` edges out of the root. -/
def SubShape (root : Node) (mainId : Nat) (st : GS) : Prop :=
  (∃ tl, st.nodes = root :: tl ∧ ∀ n ∈ tl, n.type = "subdomain") ∧
  ∀ l ∈ st.links, l.type = "has_subdomain" ∧ l.source = mainId

/-- The structural invariant of the traversal state: the id counter equals
the node count, ids are the positions in the node list, the value-to-id
dict columns mirror the node list, node values are duplicate-free, and
every recorded edge endpoint is an already-assigned id. -/
def Inv (st : GS) : Prop :=
  st.next_node_id = st.nodes.length ∧
  st.nodes.map Node.id = List.range st.nodes.length ∧
  st.node_map.map Prod.fst = st.nodes.map Node.value ∧
  st.node_map.map Prod.snd = st.nodes.map Node.id ∧
  (st.nodes.map Node.value).Nodup ∧
  ∀ l ∈ st.links, l.source < st.next_node_id ∧ l.target < st.next_node_id

/-!
## Helper lemmas
-/

theorem char_toNat_ofNat_valid (n : Nat) (h : n < 55296) :
    (Char.ofNat n).toNat = n := by
  rw [Char.ofNat, dif_pos (Or.inl h)]
  rfl

theorem pyLowerChar_idem (c : Char) :
    pyLowerChar (pyLowerChar c) = pyLowerChar c := by
  unfold pyLowerChar
  by_cases h : 65 ≤ c.toNat ∧ c.toNat ≤ 90
  · have h2 : (Char.ofNat (c.toNat + 32)).toNat = c.toNat + 32 :=
      char_toNat_ofNat_valid _ (by omega)
    have h3 : ¬(65 ≤ (Char.ofNat (c.toNat + 32)).toNat ∧
        (Char.ofNat (c.toNat + 32)).toNat ≤ 90) := by
      rw [h2]; omega
    rw [if_pos h, if_neg h3]
  · rw [if_neg h, if_neg h]

theorem pyLower_idem (s : String) : pyLower (pyLower s) = pyLower s := by
  show String.mk ((s.data.map pyLowerChar).map pyLowerChar) =
    String.mk (s.data.map pyLowerChar)
  congr 1
  rw [List.map_map]
  exact List.map_congr_left fun c _ => pyLowerChar_idem c

/-!
## Claim theorems: Domain Normalizer
-/

/-- C4: for every input string to the Domain Normalizer that contains two
consecutive `.` characters, `normalizeDomainForDNS` returns the rejection
signal (`none`), never a normalized domain — for any behavior of the
`idna` encoding oracle. -/
theorem normalize_rejects_consecutive_dots
    (enc : String → Option String) (domain : String)
    (h : containsSub domain ".." = true) :
    normalizeDomainForDNS enc domain = none := by
  unfold normalizeDomainForDNS
  rw [if_pos h]

/-- Witness for C4 at the concrete input `"a..b"`. -/
theorem normalize_rejects_consecutive_dots_witness :
    containsSub "a..b" ".." = true ∧
      normalizeDomainForDNS (fun s => some s) "a..b" = none :=
  ⟨by decide, normalize_rejects_consecutive_dots (fun s => some s) "a..b"
    (by decide)⟩

/-- C5: every domain string the Domain Normalizer accepts is returned
entirely lower-case (lower-casing it is a no-op), and — provided the
`idna` encoder maps the already-normalized output to itself, as the real
library does on its own output — re-running `normalizeDomainForDNS` on
the accepted output returns the same string. -/
theorem normalize_output_lowercase_idempotent
    (enc : String → Option String) (domain s : String)
    (hacc : normalizeDomainForDNS enc domain = some s)
    (henc : enc s = some s) :
    pyLower s = s ∧ normalizeDomainForDNS enc s = some s := by
  unfold normalizeDomainForDNS at hacc
  by_cases hdd : containsSub domain ".." = true
  · rw [if_pos hdd] at hacc; exact absurd hacc (by simp)
  · rw [if_neg hdd] at hacc
    cases hp : enc domain with
    | none => rw [hp] at hacc; exact absurd hacc (by simp)
    | some p =>
      rw [hp] at hacc
      simp only at hacc
      by_cases hchk : (pyLower p == "" || containsSub (pyLower p) ".."
          || strStartsWith (pyLower p) "-" || strEndsWith (pyLower p) "-") = true
      · rw [if_pos hchk] at hacc; exact absurd hacc (by simp)
      · rw [if_neg hchk] at hacc
        have hs : pyLower p = s := Option.some.inj hacc
        have hlow : pyLower s = s := by rw [← hs]; exact pyLower_idem p
        refine ⟨hlow, ?_⟩
        have hb : (s == "" || containsSub s ".." || strStartsWith s "-"
            || strEndsWith s "-") = false := by
          rw [← hs]
          revert hchk
          cases pyLower p == "" || containsSub (pyLower p) ".."
              || strStartsWith (pyLower p) "-" || strEndsWith (pyLower p) "-" <;>
            simp
        have hdd2 : containsSub s ".." = false := by
          revert hb
          cases hcs : containsSub s ".." <;> simp
        unfold normalizeDomainForDNS
        rw [if_neg (by simp [hdd2]), henc]
        simp only
        rw [hlow, if_neg (by simp [hb])]

/-- Witness for C5 at the concrete input `"example.com"` with an `idna`
oracle that (like the real library) fixes this already-normalized name. -/
theorem normalize_output_lowercase_idempotent_witness :
    pyLower "example.com" = "example.com" ∧
      normalizeDomainForDNS
        (fun t => if t = "example.com" then some "example.com" else none)
        "example.com" = some "example.com" :=
  normalize_output_lowercase_idempotent
    (fun t => if t = "example.com" then some "example.com" else none)
    "example.com" "example.com" (by decide) (by decide)

/-!
## Claim theorems: port scanner and Name-to-IP Resolver
-/

/-- C6: for every input matching the IPv4 dotted-quad regex,
`resolve_domain_to_ip` returns the input unchanged and issues no DNS
query; for every other input it issues exactly one `A` query and returns
the first answer, or `none` when there is no `A` record or the query
failed (never raising: the embedding is total). -/
theorem resolve_domain_to_ip_spec (answers : String → Option (List String))
    (s : String) :
    (is_valid_ipv4_address s = true →
      resolve_domain_to_ip answers s = (some s, [])) ∧
    (is_valid_ipv4_address s = false →
      (∀ l, answers s = some l →
        resolve_domain_to_ip answers s = (l.head?, [s])) ∧
      (answers s = none → resolve_domain_to_ip answers s = (none, [s]))) := by
  constructor
  · intro hv
    unfold resolve_domain_to_ip
    rw [if_pos hv]
  · intro hv
    constructor
    · intro l hl
      unfold resolve_domain_to_ip
      rw [if_neg (by simp [hv]), hl]
    · intro hl
      unfold resolve_domain_to_ip
      rw [if_neg (by simp [hv]), hl]

/-- Witness for C6 at the literal `"93.184.216.34"`: returned unchanged
with no query issued, for a failing upstream oracle. -/
theorem resolve_domain_to_ip_spec_witness :
    is_valid_ipv4_address "93.184.216.34" = true ∧
      resolve_domain_to_ip (fun _ => none) "93.184.216.34" =
        (some "93.184.216.34", []) :=
  ⟨by decide, (resolve_domain_to_ip_spec (fun _ => none) "93.184.216.34").1
    (by decide)⟩

/-- A failed probe (any caught exception) yields a closed port result. -/
theorem check_single_port_closed (p : Nat) (o : ProbeOutcome)
    (ho : o ≠ ProbeOutcome.opened) :
    check_single_port_python p o = { port := p, isOpen := false } := by
  cases o with
  | opened => exact absurd rfl ho
  | timedOut => rfl
  | refused => rfl
  | osError => rfl
  | otherError => rfl

/-- C7: when exactly ports 80 and 443 accept the TCP connect and every
other scanned port's probe fails, `local_port_check_python` reports
`open_ports = [80, 443]` and exactly the two service entries
`(80, http, http)` and `(443, https, https)`; and every probe failure is
classified as closed. -/
theorem local_port_check_http_https (probe : Nat → ProbeOutcome)
    (h : ∀ p ∈ common_ports,
      (probe p = ProbeOutcome.opened ↔ (p = 80 ∨ p = 443))) :
    (local_port_check_python probe).ports = [80, 443] ∧
    (local_port_check_python probe).services =
      [{ port := 80, protocol := "http", service := "http" },
       { port := 443, protocol := "https", service := "https" }] ∧
    ∀ p o, o ≠ ProbeOutcome.opened →
      (check_single_port_python p o).isOpen = false := by
  have hmap : common_ports.map (fun p => check_single_port_python p (probe p))
      = common_ports.map
          (fun p => { port := p, isOpen := decide (p = 80 ∨ p = 443) }) := by
    apply List.map_congr_left
    intro p hp
    by_cases hc : p = 80 ∨ p = 443
    · have ho : probe p = ProbeOutcome.opened := (h p hp).mpr hc
      rw [ho]
      simp [check_single_port_python, hc]
    · have hno : probe p ≠ ProbeOutcome.opened := fun hpr => hc ((h p hp).mp hpr)
      rw [check_single_port_closed p _ hno]
      simp [hc]
  have hres : local_port_check_python probe =
      { source := "local-check"
        ports := [80, 443]
        services := [{ port := 80, protocol := "http", service := "http" },
                     { port := 443, protocol := "https", service := "https" }]
        note := "Performed local check on common ports." } := by
    unfold local_port_check_python
    rw [hmap]
    decide
  exact ⟨by rw [hres], by rw [hres], fun p o ho => by
    rw [check_single_port_closed p o ho]⟩

/-- Witness for C7 with the concrete probe oracle that opens exactly
ports 80 and 443 and refuses everything else. -/
theorem local_port_check_http_https_witness :
    (local_port_check_python
        (fun p => if p = 80 ∨ p = 443 then ProbeOutcome.opened
          else ProbeOutcome.refused)).ports = [80, 443] ∧
    (local_port_check_python
        (fun p => if p = 80 ∨ p = 443 then ProbeOutcome.opened
          else ProbeOutcome.refused)).services =
      [{ port := 80, protocol := "http", service := "http" },
       { port := 443, protocol := "https", service := "https" }] := by
  have h := local_port_check_http_https
    (fun p => if p = 80 ∨ p = 443 then ProbeOutcome.opened
      else ProbeOutcome.refused) (by decide)
  exact ⟨h.1, h.2.1⟩

/-- C9: `"999.999.999.999"` is not a genuine IPv4 address (an octet
exceeds 255), yet `is_valid_ipv4_address` accepts it, so
`resolve_domain_to_ip` and `run_port_scan` treat it as an already-resolved
literal IP and return it unchanged while issuing no DNS query — for every
upstream environment. -/
theorem permissive_ipv4_regex_overflow :
    ipv4OctetsInRange "999.999.999.999" = false ∧
    is_valid_ipv4_address "999.999.999.999" = true ∧
    (∀ answers : String → Option (List String),
      resolve_domain_to_ip answers "999.999.999.999" =
        (some "999.999.999.999", [])) ∧
    (∀ env : ScanEnv,
      (run_port_scan env "999.999.999.999").1.ipField =
        some "999.999.999.999" ∧
      (run_port_scan env "999.999.999.999").2 = []) := by
  have hv : is_valid_ipv4_address "999.999.999.999" = true := by decide
  refine ⟨by decide, hv, fun answers => ?_, fun env => ?_⟩
  · unfold resolve_domain_to_ip
    rw [if_pos hv]
  · unfold run_port_scan
    rw [if_pos hv]
    exact ⟨rfl, rfl⟩

/-!
## Claim theorems: certificate-transparency subdomain discovery
-/

theorem mem_insertNew (l : List String) (x y : String) :
    y ∈ insertNew l x ↔ y ∈ l ∨ y = x := by
  unfold insertNew
  by_cases h : x ∈ l
  · rw [if_pos h]
    constructor
    · exact Or.inl
    · rintro (hy | rfl)
      · exact hy
      · exact h
  · rw [if_neg h]
    simp [List.mem_append]

theorem mem_cnPart (domain : String) (acc : List String) (o : Option String)
    (s : String) :
    s ∈ cnPart domain acc o ↔
      s ∈ acc ∨ ∃ cn, o = some cn ∧ cnContributes domain cn s := by
  cases o with
  | none => simp [cnPart]
  | some cn =>
    show (s ∈ (if strEndsWith cn ("." ++ domain) || cn == domain then
        if strStartsWith cn "*." && cn != domain then
          insertNew acc (replaceStarDotAll (pyLower cn))
        else insertNew acc (pyLower cn)
      else acc)) ↔ _
    by_cases h1 : (strEndsWith cn ("." ++ domain) || cn == domain) = true
    · rw [if_pos h1]
      by_cases h2 : (strStartsWith cn "*." && cn != domain) = true
      · rw [if_pos h2, mem_insertNew]
        constructor
        · rintro (hy | rfl)
          · exact Or.inl hy
          · exact Or.inr ⟨cn, rfl, h1, by rw [if_pos h2]⟩
        · rintro (hy | ⟨cn', hcn, hc⟩)
          · exact Or.inl hy
          · obtain rfl := Option.some.inj hcn
            have hs := hc.2
            rw [if_pos h2] at hs
            exact Or.inr hs
      · rw [if_neg h2, mem_insertNew]
        constructor
        · rintro (hy | rfl)
          · exact Or.inl hy
          · exact Or.inr ⟨cn, rfl, h1, by rw [if_neg h2]⟩
        · rintro (hy | ⟨cn', hcn, hc⟩)
          · exact Or.inl hy
          · obtain rfl := Option.some.inj hcn
            have hs := hc.2
            rw [if_neg h2] at hs
            exact Or.inr hs
    · rw [if_neg h1]
      constructor
      · exact Or.inl
      · rintro (hy | ⟨cn', hcn, hc⟩)
        · exact hy
        · obtain rfl := Option.some.inj hcn
          exact absurd hc.1 h1

theorem mem_nvBody (domain : String) (acc : List String) (raw s : String) :
    s ∈ nvBody domain acc raw ↔ s ∈ acc ∨ nvOneContributes domain raw s := by
  show s ∈ (if strStartsWith (pyStrip raw) "*."
        && strEndsWith (pyStrip raw) ("." ++ domain) then
      insertNew acc (replaceStarDotAll (pyLower (pyStrip raw)))
    else if strEndsWith (pyStrip raw) ("." ++ domain)
        || pyStrip raw == domain then
      insertNew acc (pyLower (pyStrip raw))
    else acc) ↔ _
  by_cases h1 : (strStartsWith (pyStrip raw) "*."
      && strEndsWith (pyStrip raw) ("." ++ domain)) = true
  · rw [if_pos h1, mem_insertNew]
    constructor
    · rintro (hy | rfl)
      · exact Or.inl hy
      · exact Or.inr (Or.inl ⟨h1, rfl⟩)
    · rintro (hy | (⟨h1', hs⟩ | ⟨h1', h2', hs⟩))
      · exact Or.inl hy
      · exact Or.inr hs
      · rw [h1] at h1'
        exact absurd h1' (by simp)
  · rw [if_neg h1]
    have h1f : (strStartsWith (pyStrip raw) "*."
        && strEndsWith (pyStrip raw) ("." ++ domain)) = false := by
      revert h1
      cases strStartsWith (pyStrip raw) "*."
          && strEndsWith (pyStrip raw) ("." ++ domain) <;> simp
    by_cases h2 : (strEndsWith (pyStrip raw) ("." ++ domain)
        || pyStrip raw == domain) = true
    · rw [if_pos h2, mem_insertNew]
      constructor
      · rintro (hy | rfl)
        · exact Or.inl hy
        · exact Or.inr (Or.inr ⟨h1f, h2, rfl⟩)
      · rintro (hy | (⟨h1', hs⟩ | ⟨h1', h2', hs⟩))
        · exact Or.inl hy
        · exact absurd h1' h1
        · exact Or.inr hs
    · rw [if_neg h2]
      constructor
      · exact Or.inl
      · rintro (hy | (⟨h1', hs⟩ | ⟨h1', h2', hs⟩))
        · exact hy
        · exact absurd h1' h1
        · exact absurd h2' h2

theorem mem_nvFold (domain : String) (names : List String)
    (acc : List String) (s : String) :
    s ∈ names.foldl (nvBody domain) acc ↔
      s ∈ acc ∨ ∃ raw ∈ names, nvOneContributes domain raw s := by
  induction names generalizing acc with
  | nil => simp
  | cons n rest ih =>
    rw [List.foldl_cons, ih, mem_nvBody]
    constructor
    · rintro ((h | h) | ⟨raw, hr, hp⟩)
      · exact Or.inl h
      · exact Or.inr ⟨n, List.mem_cons_self n rest, h⟩
      · exact Or.inr ⟨raw, List.mem_cons_of_mem n hr, hp⟩
    · rintro (h | ⟨raw, hr, hp⟩)
      · exact Or.inl (Or.inl h)
      · rcases List.mem_cons.mp hr with rfl | hr'
        · exact Or.inl (Or.inr hp)
        · exact Or.inr ⟨raw, hr', hp⟩

theorem mem_certStep (domain : String) (acc : List String) (c : Cert)
    (s : String) :
    s ∈ certStep domain acc c ↔ s ∈ acc ∨ certContributes domain c s := by
  unfold certStep certContributes
  cases hnv : c.name_value with
  | none =>
    rw [mem_cnPart]
    simp [hnv]
  | some nv =>
    rw [mem_nvFold, mem_cnPart]
    simp only [hnv, Option.some.injEq]
    constructor
    · rintro ((h | h) | h)
      · exact Or.inl h
      · exact Or.inr (Or.inl h)
      · exact Or.inr (Or.inr ⟨nv, rfl, h⟩)
    · rintro (h | (h | ⟨nv', hnv', h⟩))
      · exact Or.inl (Or.inl h)
      · exact Or.inl (Or.inr h)
      · cases hnv'
        exact Or.inr h

theorem mem_certFold (domain : String) (certs : List Cert)
    (acc : List String) (s : String) :
    s ∈ certs.foldl (certStep domain) acc ↔
      s ∈ acc ∨ ∃ c ∈ certs, certContributes domain c s := by
  induction certs generalizing acc with
  | nil => simp
  | cons c rest ih =>
    rw [List.foldl_cons, ih, mem_certStep]
    constructor
    · rintro ((h | h) | ⟨c', hc', hp⟩)
      · exact Or.inl h
      · exact Or.inr ⟨c, List.mem_cons_self c rest, h⟩
      · exact Or.inr ⟨c', List.mem_cons_of_mem c hc', hp⟩
    · rintro (h | ⟨c', hc', hp⟩)
      · exact Or.inl (Or.inl h)
      · rcases List.mem_cons.mp hc' with rfl | hc''
        · exact Or.inl (Or.inr hp)
        · exact Or.inr ⟨c', hc'', hp⟩

/-- C8 counterexample: the claim's filter ("appears iff the lower-cased
form equals the root or is a strict subdomain of it") is false at the
concrete certificate list `[{common_name: "WWW.EXAMPLE.COM"}]` with root
`"example.com"`: the lower-cased form `www.example.com` is a strict
subdomain, yet the code's case-sensitive raw-name filter drops the entry
and the output is empty. -/
theorem discover_subdomains_case_cex :
    ¬(("www.example.com" ∈ discover_subdomains_crtsh "example.com"
        [{ common_name := some "WWW.EXAMPLE.COM", name_value := none }]) ↔
      specEqOrStrictSub "example.com" "WWW.EXAMPLE.COM" = true) := by
  decide

/-- C8 amended: a string appears in the output of
`discover_subdomains_crtsh` iff some certificate entry contributes it,
where a name contributes exactly when the raw name (case-sensitively;
after trimming, for `name_value` entries) ends with `"." ++ root` or
equals the root (wildcard `name_value` entries must end with
`"." ++ root`), and what appears is the lower-cased name with every `*.`
occurrence removed in the wildcard branches. -/
theorem discover_subdomains_crtsh_mem (domain : String) (certs : List Cert)
    (s : String) :
    s ∈ discover_subdomains_crtsh domain certs ↔
      ∃ c ∈ certs, certContributes domain c s := by
  unfold discover_subdomains_crtsh
  rw [mem_certFold]
  simp

/-- Witness for C8's amended membership characterization at a concrete
wildcard certificate entry. -/
theorem discover_subdomains_crtsh_mem_witness :
    "sub.example.com" ∈ discover_subdomains_crtsh "example.com"
      [{ common_name := some "*.sub.example.com", name_value := none }] :=
  (discover_subdomains_crtsh_mem "example.com"
      [{ common_name := some "*.sub.example.com", name_value := none }]
      "sub.example.com").mpr
    ⟨{ common_name := some "*.sub.example.com", name_value := none },
      List.mem_singleton.mpr rfl,
      Or.inl ⟨"*.sub.example.com", rfl, by decide, by decide⟩⟩

/-!
## Claim theorems: the end-to-end enumeration scenario
-/

/-- C1 counterexample: in the claimed scenario (one `A` record for
`example.com`, nothing else, certificate transparency empty, reverse and
name-to-IP lookups without data) the run does NOT return 2 nodes and
1 edge: the static wordlist still contributes 25 subdomain nodes. -/
theorem run_dns_enum_example_cex :
    ¬((run_dns_enum exampleEnv "example.com").nodes.length = 2 ∧
      (run_dns_enum exampleEnv "example.com").links.length = 1) := by
  decide

/-- C1 amended: in that scenario the run returns 27 nodes — the root
domain node, the `ip_v4` node for `93.184.216.34`, and one subdomain node
per wordlist entry — and 26 edges: the single `A_record` edge from the
root to the IP node plus 25 `has_subdomain` edges. -/
theorem run_dns_enum_example_amended :
    (run_dns_enum exampleEnv "example.com").nodes.length = 27 ∧
    (run_dns_enum exampleEnv "example.com").links.length = 26 ∧
    (run_dns_enum exampleEnv "example.com").nodes.take 2 =
      [{ id := 0, type := "domain", value := "example.com",
         label := "example.com" },
       { id := 1, type := "ip_v4", value := "93.184.216.34",
         label := "93.184.216.34" }] ∧
    ((run_dns_enum exampleEnv "example.com").links.filter
        (fun l => l.type == "A_record")) =
      [{ source := 0, target := 1, type := "A_record" }] ∧
    ((run_dns_enum exampleEnv "example.com").nodes.filter
        (fun n => n.type == "subdomain")).map Node.value =
      COMMON_SUBDOMAINS.map (fun w => w ++ ".example.com") ∧
    ((run_dns_enum exampleEnv "example.com").links.filter
        (fun l => l.type == "has_subdomain")).length = 25 := by
  decide

/-!
## Claim theorems: error-handling of a record-sparse run
-/

theorem add_node_empty (ty v : String) (lbl : Option String) :
    add_node GS.empty ty v lbl =
      (0, { nodes := [{ id := 0, type := ty, value := pyStrip (pyLower v),
                        label := pyOrStr lbl v }]
            links := []
            node_map := [(pyStrip (pyLower v), 0)]
            next_node_id := 1 }) := rfl

theorem subBody_shape (env : EnumEnv) (domain : String) (mainId : Nat)
    (root : Node) (hres : ∀ h, env.resolveIp h = none) (st : GS)
    (sub : String) (h : SubShape root mainId st) :
    SubShape root mainId (subBody env domain mainId st sub) := by
  obtain ⟨⟨tl, hn, htl⟩, hl⟩ := h
  unfold subBody
  by_cases hd : sub = domain
  · rw [if_pos hd]
    exact ⟨⟨tl, hn, htl⟩, hl⟩
  · rw [if_neg hd]
    simp only [ipResolveStep, hres sub, pyTruthy]
    cases hf : findId st.node_map (pyStrip (pyLower sub)) with
    | some i =>
      simp only [add_node, hf]
      refine ⟨⟨tl, hn, htl⟩, ?_⟩
      intro l hlmem
      rcases List.mem_append.mp hlmem with hold | hnew
      · exact hl l hold
      · rcases List.mem_singleton.mp hnew with rfl
        exact ⟨rfl, rfl⟩
    | none =>
      simp only [add_node, hf]
      constructor
      · refine ⟨tl ++ [Node.mk st.next_node_id "subdomain" (pyStrip (pyLower sub)) (pyOrStr none sub) none], ?_, ?_⟩
        · show st.nodes ++ _ = _
          rw [hn]
          rfl
        · intro n hnmem
          rcases List.mem_append.mp hnmem with hold | hnew
          · exact htl n hold
          · rcases List.mem_singleton.mp hnew with rfl
            rfl
      · intro l hlmem
        rcases List.mem_append.mp hlmem with hold | hnew
        · exact hl l hold
        · rcases List.mem_singleton.mp hnew with rfl
          exact ⟨rfl, rfl⟩

theorem subFold_shape (env : EnumEnv) (domain : String) (mainId : Nat)
    (root : Node) (hres : ∀ h, env.resolveIp h = none) (L : List String)
    (st : GS) (h : SubShape root mainId st) :
    SubShape root mainId (L.foldl (subBody env domain mainId) st) := by
  induction L generalizing st with
  | nil => exact h
  | cons x xs ih =>
    rw [List.foldl_cons]
    exact ih _ (subBody_shape env domain mainId root hres st x h)

/-- C3: a run in which every upstream lookup (DNS records, certificate
transparency, reverse DNS, name-to-IP resolution) fails or returns no
data still succeeds (the embedding is total — no error escapes the
per-lookup handlers) and returns a graph whose first node is the root
domain node; the only other nodes are wordlist subdomain nodes and the
only edges are `has_subdomain` edges out of the root. -/
theorem run_dns_enum_degrades_gracefully (env : EnumEnv) (domain : String)
    (hnorm : pyStrip (pyLower domain) = domain)
    (hdns : ∀ d, env.dns d = emptyRecords)
    (hcrt : ∀ d, env.crtsh d = none)
    (hrev : ∀ ip, env.reverse ip = none)
    (hres : ∀ h, env.resolveIp h = none) :
    (run_dns_enum env domain).nodes.head? =
      some { id := 0, type := "domain", value := domain, label := domain } ∧
    (∀ n ∈ (run_dns_enum env domain).nodes.tail, n.type = "subdomain") ∧
    (∀ l ∈ (run_dns_enum env domain).links,
      l.type = "has_subdomain" ∧ l.source = 0) := by
  have hshape : SubShape
      { id := 0, type := "domain", value := domain, label := domain } 0
      (runState env domain) := by
    unfold runState
    rw [hnorm]
    simp only [add_node_empty, hdns, hnorm]
    simp only [emptyRecords, List.foldl_nil, txtStep, List.isEmpty_nil,
      if_pos]
    have hsub : discoveredSubdomains env domain =
        COMMON_SUBDOMAINS.foldl
          (fun acc sub =>
            let full_subdomain := sub ++ "." ++ domain
            if (normalizeDomainForDNS env.idna full_subdomain).isSome then
              insertNew acc full_subdomain
            else acc)
          [] := by
      unfold discoveredSubdomains
      rw [hcrt domain]
      rfl
    rw [hsub]
    apply subFold_shape env domain 0 _ hres
    refine ⟨⟨[], ?_, by simp⟩, by simp⟩
    simp [pyOrStr]
  obtain ⟨⟨tl, hn, htl⟩, hl⟩ := hshape
  refine ⟨?_, ?_, ?_⟩
  · show (runState env domain).nodes.head? = _
    rw [hn]
    rfl
  · show ∀ n ∈ (runState env domain).nodes.tail, n.type = "subdomain"
    rw [hn]
    exact htl
  · exact hl

/-- Witness for C3 at `"example.com"` against the concrete all-failing
environment. -/
theorem run_dns_enum_degrades_gracefully_witness :
    (run_dns_enum allFailEnv "example.com").nodes.head? =
      some { id := 0, type := "domain", value := "example.com",
             label := "example.com" } ∧
    (∀ n ∈ (run_dns_enum allFailEnv "example.com").nodes.tail,
      n.type = "subdomain") ∧
    (∀ l ∈ (run_dns_enum allFailEnv "example.com").links,
      l.type = "has_subdomain" ∧ l.source = 0) :=
  run_dns_enum_degrades_gracefully allFailEnv "example.com" (by decide)
    (fun _ => rfl) (fun _ => rfl) (fun _ => rfl) (fun _ => rfl)

/-!
## Invariant machinery for the dedup and id-assignment claims
-/

theorem findId_eq_none_iff (m : List (String × Nat)) (key : String) :
    findId m key = none ↔ key ∉ m.map Prod.fst := by
  induction m with
  | nil => simp [findId]
  | cons kv rest ih =>
    obtain ⟨k, v⟩ := kv
    by_cases hk : k = key
    · simp [findId, hk]
    · simp [findId, hk, ih, Ne.symm hk]

theorem findId_mem_snd (m : List (String × Nat)) (key : String) (i : Nat)
    (h : findId m key = some i) : i ∈ m.map Prod.snd := by
  induction m with
  | nil => simp [findId] at h
  | cons kv rest ih =>
    obtain ⟨k, v⟩ := kv
    by_cases hk : k = key
    · rw [findId, if_pos hk] at h
      obtain rfl := Option.some.inj h
      simp
    · rw [findId, if_neg hk] at h
      simp [ih h]

theorem add_node_spec (st : GS) (ty v : String) (lbl : Option String)
    (h : Inv st) :
    Inv (add_node st ty v lbl).2 ∧
    (add_node st ty v lbl).1 < (add_node st ty v lbl).2.next_node_id ∧
    st.next_node_id ≤ (add_node st ty v lbl).2.next_node_id ∧
    (add_node st ty v lbl).2.links = st.links := by
  obtain ⟨h1, h2, h3, h4, h5, h6⟩ := h
  cases hf : findId st.node_map (pyStrip (pyLower v)) with
  | some i =>
    have hi : i < st.next_node_id := by
      have hmem : i ∈ st.node_map.map Prod.snd := findId_mem_snd _ _ _ hf
      rw [h4, h2] at hmem
      rw [h1]
      exact List.mem_range.mp hmem
    have he : add_node st ty v lbl = (i, st) := by
      simp only [add_node, hf]
    rw [he]
    exact ⟨⟨h1, h2, h3, h4, h5, h6⟩, hi, le_refl _, rfl⟩
  | none =>
    have hnotin : pyStrip (pyLower v) ∉ st.node_map.map Prod.fst :=
      (findId_eq_none_iff _ _).mp hf
    have he : add_node st ty v lbl =
        (st.next_node_id,
          { nodes := st.nodes ++
              [{ id := st.next_node_id, type := ty,
                 value := pyStrip (pyLower v), label := pyOrStr lbl v }]
            links := st.links
            node_map := st.node_map ++ [(pyStrip (pyLower v), st.next_node_id)]
            next_node_id := st.next_node_id + 1 }) := by
      simp only [add_node, hf]
    rw [he]
    refine ⟨⟨?_, ?_, ?_, ?_, ?_, ?_⟩, ?_, ?_, rfl⟩
    · simp [h1]
    · simp only [List.map_append, List.length_append, List.map_cons,
        List.map_nil, List.length_cons, List.length_nil]
      rw [h2, h1]
      rw [List.range_succ]
    · simp only [List.map_append, List.map_cons, List.map_nil]
      rw [h3]
    · simp only [List.map_append, List.map_cons, List.map_nil]
      rw [h4, h1]
    · simp only [List.map_append, List.map_cons, List.map_nil]
      rw [List.nodup_append]
      refine ⟨h5, List.nodup_singleton _, ?_⟩
      intro a ha hb
      rcases List.mem_singleton.mp hb with rfl
      rw [h3] at hnotin
      exact hnotin ha
    · intro l hl
      have := h6 l hl
      simp only
      omega
    · simp
    · simp

theorem pushLink_spec (st : GS) (s t : Nat) (ty : String) (h : Inv st)
    (hs : s < st.next_node_id) (ht : t < st.next_node_id) :
    Inv (pushLink st s t ty) ∧
    (pushLink st s t ty).next_node_id = st.next_node_id := by
  obtain ⟨h1, h2, h3, h4, h5, h6⟩ := h
  refine ⟨⟨h1, h2, h3, h4, h5, ?_⟩, rfl⟩
  intro l hl
  rcases List.mem_append.mp hl with hold | hnew
  · exact h6 l hold
  · rcases List.mem_singleton.mp hnew with rfl
    exact ⟨hs, ht⟩

theorem ptrStep_spec (env : EnumEnv) (st : GS) (ip : String) (ipId : Nat)
    (cmp : String) (h : Inv st) (hip : ipId < st.next_node_id) :
    Inv (ptrStep env st ip ipId cmp) ∧
    st.next_node_id ≤ (ptrStep env st ip ipId cmp).next_node_id := by
  cases hrev : pyTruthy (env.reverse ip) with
  | none =>
    simp only [ptrStep, hrev]
    exact ⟨h, le_refl _⟩
  | some hostname =>
    simp only [ptrStep, hrev]
    by_cases hcmp : pyLower hostname ≠ cmp
    · rw [if_pos hcmp]
      obtain ⟨ha, hb, hc, hd⟩ := add_node_spec st "domain" hostname none h
      obtain ⟨he, hfx⟩ := pushLink_spec _ ipId _ "PTR_record" ha
        (lt_of_lt_of_le hip hc) hb
      exact ⟨he, by rw [hfx]; exact hc⟩
    · rw [if_neg hcmp]
      exact ⟨h, le_refl _⟩

theorem ipResolveStep_spec (env : EnumEnv) (st : GS) (host : String)
    (hostId : Nat) (doPtr : Bool) (h : Inv st)
    (hh : hostId < st.next_node_id) :
    Inv (ipResolveStep env st host hostId doPtr) ∧
    st.next_node_id ≤ (ipResolveStep env st host hostId doPtr).next_node_id
    := by
  cases hres : pyTruthy (env.resolveIp host) with
  | none =>
    simp only [ipResolveStep, hres]
    exact ⟨h, le_refl _⟩
  | some ip =>
    simp only [ipResolveStep, hres]
    obtain ⟨ha, hb, hc, hd⟩ := add_node_spec st "ip_v4" ip none h
    obtain ⟨he, hfx⟩ := pushLink_spec _ hostId _ "A_record" ha
      (lt_of_lt_of_le hh hc) hb
    cases doPtr with
    | false =>
      rw [if_neg (by decide)]
      exact ⟨he, by rw [hfx]; exact hc⟩
    | true =>
      rw [if_pos rfl]
      obtain ⟨hg, hi⟩ := ptrStep_spec env _ ip _ host he
        (by rw [hfx]; exact hb)
      exact ⟨hg, le_trans hc (by rw [← hfx]; exact hi)⟩

theorem aBody_spec (env : EnumEnv) (domain : String) (mainId : Nat)
    (st : GS) (ip : String) (h : Inv st) (hm : mainId < st.next_node_id) :
    Inv (aBody env domain mainId st ip) ∧
    mainId < (aBody env domain mainId st ip).next_node_id := by
  obtain ⟨ha, hb, hc, _⟩ := add_node_spec st "ip_v4" ip none h
  obtain ⟨he, hfx⟩ := pushLink_spec _ mainId _ "A_record" ha
    (lt_of_lt_of_le hm hc) hb
  obtain ⟨hg, hi⟩ := ptrStep_spec env _ ip _ domain he (by rw [hfx]; exact hb)
  exact ⟨hg, lt_of_lt_of_le (lt_of_lt_of_le hm hc) (by rw [← hfx]; exact hi)⟩

theorem aaaaBody_spec (mainId : Nat) (st : GS) (ip : String) (h : Inv st)
    (hm : mainId < st.next_node_id) :
    Inv (aaaaBody mainId st ip) ∧
    mainId < (aaaaBody mainId st ip).next_node_id := by
  obtain ⟨ha, hb, hc, _⟩ := add_node_spec st "ip_v6" ip none h
  obtain ⟨he, hfx⟩ := pushLink_spec _ mainId _ "AAAA_record" ha
    (lt_of_lt_of_le hm hc) hb
  exact ⟨he, lt_of_lt_of_le hm (le_trans hc (le_of_eq hfx.symm))⟩

theorem mxBody_spec (env : EnumEnv) (mainId : Nat) (st : GS)
    (mx_record : String) (h : Inv st) (hm : mainId < st.next_node_id) :
    Inv (mxBody env mainId st mx_record) ∧
    mainId < (mxBody env mainId st mx_record).next_node_id := by
  obtain ⟨ha, hb, hc, _⟩ :=
    add_node_spec st "mail_server" (pyLower (parseMxHostname mx_record)) none h
  obtain ⟨he, hfx⟩ := pushLink_spec _ mainId _ "MX_record" ha
    (lt_of_lt_of_le hm hc) hb
  obtain ⟨hg, hi⟩ := ipResolveStep_spec env _
    (pyLower (parseMxHostname mx_record)) _ true he (by rw [hfx]; exact hb)
  exact ⟨hg, lt_of_lt_of_le (lt_of_lt_of_le hm hc) (by rw [← hfx]; exact hi)⟩

theorem nsBody_spec (env : EnumEnv) (mainId : Nat) (st : GS)
    (ns_record : String) (h : Inv st) (hm : mainId < st.next_node_id) :
    Inv (nsBody env mainId st ns_record) ∧
    mainId < (nsBody env mainId st ns_record).next_node_id := by
  obtain ⟨ha, hb, hc, _⟩ :=
    add_node_spec st "name_server" (pyLower (stripDots ns_record)) none h
  obtain ⟨he, hfx⟩ := pushLink_spec _ mainId _ "NS_record" ha
    (lt_of_lt_of_le hm hc) hb
  obtain ⟨hg, hi⟩ := ipResolveStep_spec env _
    (pyLower (stripDots ns_record)) _ true he (by rw [hfx]; exact hb)
  exact ⟨hg, lt_of_lt_of_le (lt_of_lt_of_le hm hc) (by rw [← hfx]; exact hi)⟩

theorem cnameBody_spec (env : EnumEnv) (domain : String) (mainId : Nat)
    (st : GS) (entry : String × String) (h : Inv st)
    (hm : mainId < st.next_node_id) :
    Inv (cnameBody env domain mainId st entry) ∧
    mainId < (cnameBody env domain mainId st entry).next_node_id := by
  obtain ⟨ha, hb, hc, _⟩ :=
    add_node_spec st "domain" (pyLower (stripDots entry.1)) none h
  obtain ⟨ha2, hb2, hc2, _⟩ :=
    add_node_spec _ "domain" (pyLower (stripDots entry.2)) none ha
  obtain ⟨hi3, he3⟩ := pushLink_spec _ _ _ "CNAME_record" ha2
    (lt_of_lt_of_le hb hc2) hb2
  simp only [cnameBody]
  by_cases hcd : pyLower (stripDots entry.1) = domain
  · rw [if_pos hcd]
    obtain ⟨hi4, he4⟩ := pushLink_spec _ mainId _ "CNAME_alias" hi3
      (by rw [he3]; exact lt_of_lt_of_le hm (le_trans hc hc2))
      (by rw [he3]; exact lt_of_lt_of_le hb hc2)
    obtain ⟨hg, hge⟩ := ipResolveStep_spec env _ (pyLower (stripDots entry.2))
      _ false hi4 (by rw [he4, he3]; exact hb2)
    refine ⟨hg, ?_⟩
    have : mainId < st.next_node_id := hm
    calc mainId < st.next_node_id := hm
      _ ≤ _ := le_trans (le_trans hc hc2)
            (by rw [← he3, ← he4]; exact hge)
  · rw [if_neg hcd]
    obtain ⟨hg, hge⟩ := ipResolveStep_spec env _ (pyLower (stripDots entry.2))
      _ false hi3 (by rw [he3]; exact hb2)
    refine ⟨hg, ?_⟩
    calc mainId < st.next_node_id := hm
      _ ≤ _ := le_trans (le_trans hc hc2) (by rw [← he3]; exact hge)

theorem subBody_spec (env : EnumEnv) (domain : String) (mainId : Nat)
    (st : GS) (subdomain : String) (h : Inv st)
    (hm : mainId < st.next_node_id) :
    Inv (subBody env domain mainId st subdomain) ∧
    mainId < (subBody env domain mainId st subdomain).next_node_id := by
  simp only [subBody]
  by_cases hd : subdomain = domain
  · rw [if_pos hd]
    exact ⟨h, hm⟩
  · rw [if_neg hd]
    obtain ⟨ha, hb, hc, _⟩ := add_node_spec st "subdomain" subdomain none h
    obtain ⟨he, hfx⟩ := pushLink_spec _ mainId _ "has_subdomain" ha
      (lt_of_lt_of_le hm hc) hb
    obtain ⟨hg, hi⟩ := ipResolveStep_spec env _ subdomain _ true he
      (by rw [hfx]; exact hb)
    exact ⟨hg, lt_of_lt_of_le (lt_of_lt_of_le hm hc)
      (by rw [← hfx]; exact hi)⟩

theorem foldl_spec {α : Type} (f : GS → α → GS) (mainId : Nat)
    (hf : ∀ st x, Inv st → mainId < st.next_node_id →
      Inv (f st x) ∧ mainId < (f st x).next_node_id) (l : List α) :
    ∀ st, Inv st → mainId < st.next_node_id →
      Inv (l.foldl f st) ∧ mainId < (l.foldl f st).next_node_id := by
  induction l with
  | nil => exact fun st h hm => ⟨h, hm⟩
  | cons x xs ih =>
    intro st h hm
    rw [List.foldl_cons]
    obtain ⟨h', hm'⟩ := hf st x h hm
    exact ih _ h' hm'

theorem setTxtFirst_map_id (mainId : Nat) (txt : String) (l : List Node) :
    (setTxtFirst mainId txt l).map Node.id = l.map Node.id := by
  induction l with
  | nil => rfl
  | cons n rest ih =>
    unfold setTxtFirst
    by_cases hn : n.id = mainId
    · simp [hn]
    · simp [hn, ih]

theorem setTxtFirst_map_value (mainId : Nat) (txt : String) (l : List Node) :
    (setTxtFirst mainId txt l).map Node.value = l.map Node.value := by
  induction l with
  | nil => rfl
  | cons n rest ih =>
    unfold setTxtFirst
    by_cases hn : n.id = mainId
    · simp [hn]
    · simp [hn, ih]

theorem txtStep_spec (txt : List String) (mainId : Nat) (st : GS)
    (h : Inv st) :
    Inv (txtStep txt mainId st) ∧
    (txtStep txt mainId st).next_node_id = st.next_node_id := by
  obtain ⟨h1, h2, h3, h4, h5, h6⟩ := h
  unfold txtStep
  by_cases ht : txt.isEmpty = true
  · rw [if_pos ht]
    exact ⟨⟨h1, h2, h3, h4, h5, h6⟩, rfl⟩
  · rw [if_neg ht]
    have hlen : (setTxtFirst mainId (String.intercalate "\n" txt)
        st.nodes).length = st.nodes.length := by
      have := congrArg List.length
        (setTxtFirst_map_id mainId (String.intercalate "\n" txt) st.nodes)
      simpa using this
    refine ⟨⟨?_, ?_, ?_, ?_, ?_, ?_⟩, rfl⟩
    · simp only
      rw [hlen]
      exact h1
    · simp only
      rw [setTxtFirst_map_id, hlen]
      exact h2
    · simp only
      rw [setTxtFirst_map_value]
      exact h3
    · simp only
      rw [setTxtFirst_map_id]
      exact h4
    · simp only
      rw [setTxtFirst_map_value]
      exact h5
    · exact h6

theorem runState_spec (env : EnumEnv) (domain : String) :
    Inv (runState env domain) ∧ 0 < (runState env domain).next_node_id := by
  have base : Inv (add_node GS.empty "domain" (pyStrip (pyLower domain))
        (some (pyStrip (pyLower domain)))).2 ∧
      0 < (add_node GS.empty "domain" (pyStrip (pyLower domain))
        (some (pyStrip (pyLower domain)))).2.next_node_id := by
    rw [add_node_empty]
    exact ⟨⟨rfl, by simp [List.range_succ], rfl, rfl, by simp, by simp⟩,
      by simp⟩
  have hA := foldl_spec (aBody env (pyStrip (pyLower domain)) 0) 0
    (fun st x h hm => aBody_spec env _ 0 st x h hm)
    (env.dns (pyStrip (pyLower domain))).A _ base.1 base.2
  have hAAAA := foldl_spec (aaaaBody 0) 0
    (fun st x h hm => aaaaBody_spec 0 st x h hm)
    (env.dns (pyStrip (pyLower domain))).AAAA _ hA.1 hA.2
  have hMX := foldl_spec (mxBody env 0) 0
    (fun st x h hm => mxBody_spec env 0 st x h hm)
    (env.dns (pyStrip (pyLower domain))).MX _ hAAAA.1 hAAAA.2
  have hNS := foldl_spec (nsBody env 0) 0
    (fun st x h hm => nsBody_spec env 0 st x h hm)
    (env.dns (pyStrip (pyLower domain))).NS _ hMX.1 hMX.2
  have hTXT := txtStep_spec (env.dns (pyStrip (pyLower domain))).TXT 0 _
    hNS.1
  have hTXT' : Inv (txtStep (env.dns (pyStrip (pyLower domain))).TXT 0
        (List.foldl (nsBody env 0) (List.foldl (mxBody env 0)
          (List.foldl (aaaaBody 0) (List.foldl
            (aBody env (pyStrip (pyLower domain)) 0)
            (add_node GS.empty "domain" (pyStrip (pyLower domain))
              (some (pyStrip (pyLower domain)))).2
            (env.dns (pyStrip (pyLower domain))).A)
          (env.dns (pyStrip (pyLower domain))).AAAA)
          (env.dns (pyStrip (pyLower domain))).MX)
          (env.dns (pyStrip (pyLower domain))).NS)) ∧
      0 < (txtStep (env.dns (pyStrip (pyLower domain))).TXT 0
        (List.foldl (nsBody env 0) (List.foldl (mxBody env 0)
          (List.foldl (aaaaBody 0) (List.foldl
            (aBody env (pyStrip (pyLower domain)) 0)
            (add_node GS.empty "domain" (pyStrip (pyLower domain))
              (some (pyStrip (pyLower domain)))).2
            (env.dns (pyStrip (pyLower domain))).A)
          (env.dns (pyStrip (pyLower domain))).AAAA)
          (env.dns (pyStrip (pyLower domain))).MX)
          (env.dns (pyStrip (pyLower domain))).NS)).next_node_id :=
    ⟨hTXT.1, by rw [hTXT.2]; exact hNS.2⟩
  have hCN := foldl_spec (cnameBody env (pyStrip (pyLower domain)) 0) 0
    (fun st x h hm => cnameBody_spec env _ 0 st x h hm)
    (env.dns (pyStrip (pyLower domain))).CNAME _ hTXT'.1 hTXT'.2
  have hSub := foldl_spec (subBody env (pyStrip (pyLower domain)) 0) 0
    (fun st x h hm => subBody_spec env _ 0 st x h hm)
    (discoveredSubdomains env (pyStrip (pyLower domain))) _ hCN.1 hCN.2
  exact ⟨hSub.1, hSub.2⟩

/-!
## Claim theorems: dedup invariant and id assignment
-/

/-- C2: in every enumeration run, node values (normalized by lower-casing
and trimming) are unique across the returned node set; and whenever
`add_node` is called with a value whose normalized form is already in the
value-to-id map, the existing id is returned and the state — hence the
existing node's type and label — is unchanged. -/
theorem dedup_by_value (env : EnumEnv) (domain : String) :
    ((run_dns_enum env domain).nodes.map Node.value).Nodup ∧
    ∀ st ty v lbl i, findId st.node_map (pyStrip (pyLower v)) = some i →
      add_node st ty v lbl = (i, st) := by
  constructor
  · exact (runState_spec env domain).1.2.2.2.2.1
  · intro st ty v lbl i hf
    simp only [add_node, hf]

/-- Witness for C2: a duplicate observation returns the existing id `5`
and leaves the state untouched, and the concrete all-failing run has
duplicate-free node values. -/
theorem dedup_by_value_witness :
    add_node dupState "mail_server" " FOO " none = (5, dupState) ∧
    ((run_dns_enum allFailEnv "example.com").nodes.map Node.value).Nodup :=
  ⟨(dedup_by_value allFailEnv "example.com").2 dupState "mail_server" " FOO "
      none 5 (by decide),
    (dedup_by_value allFailEnv "example.com").1⟩

/-- C10: in every returned graph, node ids are `0, 1, 2, ...` in order of
first observation — each node's id equals its index in the node list —
and every link's source and target are ids of nodes present in the list. -/
theorem ids_are_positions (env : EnumEnv) (domain : String) :
    (run_dns_enum env domain).nodes.map Node.id =
      List.range (run_dns_enum env domain).nodes.length ∧
    ((run_dns_enum env domain).links.all fun l =>
      ((run_dns_enum env domain).nodes.map Node.id).contains l.source &&
      ((run_dns_enum env domain).nodes.map Node.id).contains l.target)
      = true := by
  obtain ⟨⟨h1, h2, h3, h4, h5, h6⟩, hpos⟩ := runState_spec env domain
  simp only [run_dns_enum]
  constructor
  · exact h2
  · rw [List.all_eq_true]
    intro l hl
    obtain ⟨hs, ht⟩ := h6 l hl
    rw [Bool.and_eq_true]
    constructor
    · rw [h2]
      exact List.elem_eq_true_of_mem
        (List.mem_range.mpr (by rw [← h1]; exact hs))
    · rw [h2]
      exact List.elem_eq_true_of_mem
        (List.mem_range.mpr (by rw [← h1]; exact ht))

end OsintBox
